import Mathlib

/-!
Verification development for the ADC workflow engine
(`src/adc/workflows/sequential_workflow.py`, `src/adc/workflows/state.py`,
`src/adc/library_loader/*`).  Python functions are shallowly embedded as
executable Lean definitions; floats that are only compared and never
rounded are modelled as rationals.
-/

namespace ADC

/-! ## ProgressTracker (`sequential_workflow.py`, lines 146-169) -/

/-- Embedding of `ProgressTracker.is_stuck`.  The Python code returns
`False` for histories shorter than three, otherwise takes the slice
`scores[-3:]` and tests `last_three[-1] <= last_three[-2] and
last_three[-2] <= last_three[-3]`. -/
def ProgressTracker.is_stuck (scores : List ℚ) : Bool :=
  if scores.length < 3 then false
  else
    match scores.drop (scores.length - 3) with
    | [a, b, c] => decide (c ≤ b) && decide (b ≤ a)
    | _ => false

/-! ## Graduated compliance target (`sequential_workflow.py`, lines 932-948) -/

/-- Embedding of `SequentialWorkflow._get_compliance_target`:
0.60 for `inner_iteration <= 2`, 0.70 for `inner_iteration <= 5`,
0.85 otherwise. -/
def getComplianceTarget (inner_iteration : ℕ) : ℚ :=
  if inner_iteration ≤ 2 then 0.60
  else if inner_iteration ≤ 5 then 0.70
  else 0.85

/-! ## Inner-loop exit decision (`sequential_workflow.py`, lines 1128-1188)

After each audit the loop appends the new compliance score to the
tracker (`self.progress.add_score(compliance)`, line 1128) and then
tests, in source order: stagnation (line 1172), the graduated target
(line 1179), and the inner-iteration cap (line 1185); otherwise it
continues with code generation. -/

inductive InnerExit where
  | stuck
  | targetMet
  | maxIter
  | continueLoop
  deriving DecidableEq, Repr

/-- Embedding of the post-audit decision sequence of
`SequentialWorkflow.inner_loop`.  `prevScores` is the tracker history
before this audit; the new `compliance` score is appended first, exactly
as in the source.  Returns the decision together with the updated
history. -/
def innerLoopPostAudit (prevScores : List ℚ) (compliance : ℚ)
    (inner_iteration max_inner : ℕ) : InnerExit × List ℚ :=
  let scores := prevScores ++ [compliance]
  let exit :=
    if ProgressTracker.is_stuck scores then InnerExit.stuck
    else if compliance ≥ getComplianceTarget inner_iteration then InnerExit.targetMet
    else if inner_iteration ≥ max_inner then InnerExit.maxIter
    else InnerExit.continueLoop
  (exit, scores)

/-! ## Contract-file collection (`sequential_workflow.py`, lines 267-284 and 1344-1348)

Both `load_contracts_summary` (line 273) and `outer_loop` (line 1347)
collect contract files with
`list(contracts_dir.glob("**/*.qmd")) + list(contracts_dir.glob("**/*.adc"))`.
We model the contracts directory as the list of relative file names it
contains. -/

/-- Suffix test on strings, used to model which file names a `glob`
pattern `**/*.<ext>` matches (character-level suffix comparison). -/
def strEndsWith (f suffix : String) : Bool :=
  suffix.toList.isSuffixOf f.toList

/-- Embedding of the contract-file collection used by
`SequentialWorkflow.load_contracts_summary` and
`SequentialWorkflow.outer_loop`: all `.qmd` files followed by all `.adc`
files. -/
def collectContractFiles (files : List String) : List String :=
  files.filter (fun f => strEndsWith f ".qmd") ++ files.filter (fun f => strEndsWith f ".adc")

/-- Embedding of the `existing_contracts` expression of
`SequentialWorkflow.outer_loop` (line 1347): empty when the contracts
directory does not exist. -/
def existingContracts (contractsDirExists : Bool) (files : List String) : List String :=
  if contractsDirExists then collectContractFiles files else []

/-! ## Marker scanner (`marker_verifier.py`, lines 50-137)

Both `_find_markers_with_rg` and `_find_markers_with_grep` extract the
capture group of the regular expression `ADC-IMPLEMENTS:\s*<([^>]+)>`
from the scanned files and return the set of captured block IDs.  The
searches are line-based (ripgrep and grep match within single lines), so
we model a file as its list of lines and embed the regex matcher
directly: leftmost, non-overlapping matches per line.  The scanners are
written with an explicit fuel argument (one unit per character of the
line, which each step consumes at least one of) so that they are
structurally recursive and computable by the kernel. -/

/-- The literal part `ADC-IMPLEMENTS:` of the marker pattern. -/
def markerLiteral : List Char := "ADC-IMPLEMENTS:".toList

/-- Whitespace characters matched by `\s` inside a single line
(newlines never occur inside a line). -/
def isRegexSpace (c : Char) : Bool :=
  c = ' ' || c = '\t' || c = '\r' || c = '\x0b' || c = '\x0c'

/-- Split a character list at the first `>`:
returns the characters before it and the remainder after it. -/
def splitAtGt : List Char → Option (List Char × List Char)
  | [] => none
  | c :: rest =>
    if c = '>' then some ([], rest)
    else
      match splitAtGt rest with
      | some (cap, rest1) => some (c :: cap, rest1)
      | none => none

/-- Try to match `ADC-IMPLEMENTS:\s*<([^>]+)>` at the head of the line;
on success return the capture and the remainder of the line after the
closing `>`. -/
def matchMarkerAt (l : List Char) : Option (List Char × List Char) :=
  if markerLiteral.isPrefixOf l then
    match (l.drop markerLiteral.length).dropWhile isRegexSpace with
    | '<' :: l2 =>
      match splitAtGt l2 with
      | some (cap, rest) => if cap.isEmpty then none else some (cap, rest)
      | none => none
    | _ => none
  else none

/-- Scan one line for all (leftmost, non-overlapping) matches of the
marker pattern, returning the captured block IDs in order. -/
def scanLineFuel : ℕ → List Char → List (List Char)
  | 0, _ => []
  | _, [] => []
  | fuel + 1, c :: rest =>
    match matchMarkerAt (c :: rest) with
    | some (cap, after) => cap :: scanLineFuel fuel after
    | none => scanLineFuel fuel rest

/-- Scan one full line (fuel equal to the line length always suffices,
since every scanning step consumes at least one character). -/
def scanLine (l : List Char) : List (List Char) :=
  scanLineFuel l.length l

/-- Embedding of the marker extraction performed by
`MarkerVerifier._find_markers_with_rg` /
`MarkerVerifier._find_markers_with_grep` on one file: the file content
is split into lines and every line is scanned for the capture group of
`ADC-IMPLEMENTS:\s*<([^>]+)>`. -/
def findMarkersInContent (content : String) : List String :=
  ((content.toList.splitOn '\n').flatMap scanLine).map List.asString

/-- Embedding of `MarkerVerifier.find_markers` over a set of scanned
files, as the set (deduplicated list) of block IDs captured across all
file contents. -/
def MarkerVerifier.find_markers (fileContents : List String) : List String :=
  (fileContents.flatMap findMarkersInContent).dedup

/-- Character class `[a-zA-Z0-9_-]` of the regular expression the
specification claims. -/
def isClaimIdChar (c : Char) : Bool :=
  ('a' ≤ c && c ≤ 'z') || ('A' ≤ c && c ≤ 'Z') || ('0' ≤ c && c ≤ '9') || c = '_' || c = '-'

/-- Match of the claimed pattern `ADC-IMPLEMENTS:\s*<([a-zA-Z0-9_-]+)>`
at the head of a line: after `<`, a maximal nonempty run of allowed
characters must be followed directly by `>`.  Used only to compare the
claimed behaviour with the code's behaviour. -/
def matchClaimMarkerAt (l : List Char) : Option (List Char × List Char) :=
  if markerLiteral.isPrefixOf l then
    match (l.drop markerLiteral.length).dropWhile isRegexSpace with
    | '<' :: l2 =>
      match l2.dropWhile isClaimIdChar with
      | '>' :: rest =>
        if (l2.takeWhile isClaimIdChar).isEmpty then none
        else some (l2.takeWhile isClaimIdChar, rest)
      | _ => none
    | _ => none
  else none

/-- Scan one line with the claimed pattern. -/
def scanLineClaimFuel : ℕ → List Char → List (List Char)
  | 0, _ => []
  | _, [] => []
  | fuel + 1, c :: rest =>
    match matchClaimMarkerAt (c :: rest) with
    | some (cap, after) => cap :: scanLineClaimFuel fuel after
    | none => scanLineClaimFuel fuel rest

/-- Capture set of the claimed regular expression over a set of file
contents. -/
def findMarkersClaim (fileContents : List String) : List String :=
  (fileContents.flatMap
    (fun content =>
      ((content.toList.splitOn '\n').flatMap
        (fun l => scanLineClaimFuel l.length l)).map List.asString)).dedup

/-! ## Verification data model (`verification.py`, `metadata.py`,
`contract_extractor.py`)

`LibraryMetadata.load_time_ms` (a float used only for reporting),
`language_indicators`, and the workflow timestamps are irrelevant to the
claims and omitted; Python `type` objects in signatures are modelled as
opaque strings; enum members are modelled by their string values. -/

structure FunctionSignature where
  name : String
  parameters : List (String × String)
  return_type : String
  is_required : Bool
  deriving DecidableEq, Repr

structure ExpectedInterface where
  contract_id : String
  required_functions : List (String × FunctionSignature)
  required_block_ids : List String
  expected_docstrings : List (String × String)
  deriving DecidableEq, Repr

structure LibraryMetadata where
  workspace_path : String
  detected_language : String
  bridge_type : String
  supports_signature_verification : Bool
  supports_type_introspection : Bool
  supports_docstring_verification : Bool
  load_errors : List String
  deriving DecidableEq, Repr

structure SignatureMismatch where
  function_name : String
  expected_signature : String
  found_signature : String
  mismatch_details : List String
  deriving DecidableEq, Repr

structure VerificationResult where
  is_compliant : Bool
  verification_level : String
  required_functions_found : List String
  required_functions_missing : List String
  signature_matches : List (String × Bool)
  signature_mismatches : List SignatureMismatch
  type_mismatches : List String
  missing_docstrings : List String
  adc_implements_markers_found : List String
  adc_implements_markers_missing : List String
  verification_timestamp : String
  library_metadata : LibraryMetadata
  verification_errors : List String
  warnings : List String
  deriving DecidableEq, Repr

/-- Embedding of the `VerificationResult.compliance_score` property
(`verification.py`, lines 60-76): `passed_checks` is an integer that may
go negative before the final clamp, so it is modelled as `ℤ` and the
quotient as `ℚ`. -/
def VerificationResult.compliance_score (v : VerificationResult) : ℚ :=
  let total_checks := v.required_functions_found.length + v.required_functions_missing.length
  if total_checks = 0 then 0
  else
    let passed_checks : ℤ := (v.required_functions_found.length : ℤ)
    let passed_checks : ℤ :=
      if v.library_metadata.supports_signature_verification
      then passed_checks - v.signature_mismatches.length
      else passed_checks
    let passed_checks : ℤ := passed_checks - v.adc_implements_markers_missing.length
    max 0 (min 1 ((passed_checks : ℚ) / (total_checks : ℚ)))

/-! ## Compliance verification (`verifier.py`, lines 21-144)

`verify_compliance` is embedded with the library proxy modelled by its
attribute-name list (`hasattr` becomes membership) and the marker scan
modelled by its outcome: `Except.ok found` for a completed scan and
`Except.error e` for a raised exception, matching the `try/except`
around `verifier.find_markers` (the scan itself shells out to
ripgrep/grep).  `datetime.utcnow()` is passed in as `now`. -/

def verify_compliance (expected : ExpectedInterface) (proxyAttrs : List String)
    (metadata : LibraryMetadata) (markerScan : Except String (List String))
    (now : String) : VerificationResult :=
  let required_functions_found :=
    (expected.required_functions.filter (fun p => proxyAttrs.contains p.1)).map (fun p => p.1)
  let required_functions_missing :=
    (expected.required_functions.filter (fun p => !(proxyAttrs.contains p.1))).map (fun p => p.1)
  let signature_matches :=
    expected.required_functions.map (fun p => (p.1, proxyAttrs.contains p.1))
  let signature_mismatches : List SignatureMismatch := []
  let warnings :=
    if metadata.supports_signature_verification then
      if proxyAttrs.contains "__module_ref__" then ([] : List String)
      else ["Signature verification supported but not implemented for this bridge"]
    else
      ["Limited verification - signature checking not available for " ++ metadata.bridge_type]
  let markerOutcome :=
    match markerScan with
    | Except.ok found_markers =>
      (found_markers,
       expected.required_block_ids.filter (fun b => !(found_markers.contains b)),
       ([] : List String))
    | Except.error e =>
      (([] : List String), expected.required_block_ids, ["Marker verification failed: " ++ e])
  let adc_implements_markers_found := markerOutcome.1
  let adc_implements_markers_missing := markerOutcome.2.1
  let verification_errors := markerOutcome.2.2
  let is_compliant :=
    required_functions_missing.isEmpty && adc_implements_markers_missing.isEmpty
  let verification_level :=
    if metadata.supports_signature_verification then "FULL"
    else if metadata.bridge_type = "cli_fallback" then "LIMITED"
    else "MARKER_ONLY"
  { is_compliant := is_compliant
    verification_level := verification_level
    required_functions_found := required_functions_found
    required_functions_missing := required_functions_missing
    signature_matches := signature_matches
    signature_mismatches := signature_mismatches
    type_mismatches := []
    missing_docstrings := []
    adc_implements_markers_found := adc_implements_markers_found
    adc_implements_markers_missing := adc_implements_markers_missing
    verification_timestamp := now
    library_metadata := metadata
    verification_errors := verification_errors
    warnings := warnings }

/-! ## RPC bridge (`rpc_bridge.py`, lines 96-193)

MessagePack values are modelled by an inductive type; the MessagePack
byte encoding itself is external (`msgpack.packb`) and is therefore a
parameter of the request builder.  The two `RPCError` raise sites of
`call` after a successfully decoded response are modelled as the error
cases of an `Except`. -/

inductive MsgValue where
  | nil
  | boolean (b : Bool)
  | int (i : ℤ)
  | str (s : String)
  | arr (elems : List MsgValue)
  | map (entries : List (String × MsgValue))
  deriving Repr

/-- Big-endian 4-byte encoding of a length, embedding
`struct.pack(">I", len(request))` (which requires the value to fit in 32
bits). -/
def toBE32 (n : ℕ) : List ℕ :=
  [n / 2 ^ 24 % 256, n / 2 ^ 16 % 256, n / 2 ^ 8 % 256, n % 256]

/-- Big-endian decoding of a 4-byte header, for stating round-trip
properties of the frame. -/
def ofBE32 : List ℕ → ℕ
  | [a, b, c, d] => ((a * 256 + b) * 256 + c) * 256 + d
  | _ => 0

/-- The request payload map of `RPCBridge.call` (line 126):
the map with keys `c` (method name) and `a` (keyword-argument map). -/
def rpcRequestPayload (method : String) (kwargs : List (String × MsgValue)) : MsgValue :=
  MsgValue.map [("c", MsgValue.str method), ("a", MsgValue.map kwargs)]

/-- Embedding of the request frame built by `RPCBridge.call`
(lines 126-132): the 4-byte big-endian length header followed by the
MessagePack encoding of the payload.  `packb` is the external
MessagePack encoder. -/
def RPCBridge.buildRequest (packb : MsgValue → List ℕ) (method : String)
    (kwargs : List (String × MsgValue)) : List ℕ :=
  let request := packb (rpcRequestPayload method kwargs)
  toBE32 request.length ++ request

inductive RPCCallError where
  | remote (method : String) (message : MsgValue)
  | invalidFormat (method : String) (response : List (String × MsgValue))
  deriving Repr

/-- Embedding of the response dispatch of `RPCBridge.call`
(lines 178-193) on a decoded response map: a map containing key `e`
raises `RPCError` carrying the remote message; otherwise a map
containing `r` returns that value unchanged; otherwise `RPCError`
(invalid response format) is raised. -/
def RPCBridge.handleResponse (method : String)
    (response : List (String × MsgValue)) : Except RPCCallError MsgValue :=
  match response.lookup "e" with
  | some err => Except.error (RPCCallError.remote method err)
  | none =>
    match response.lookup "r" with
    | some res => Except.ok res
    | none => Except.error (RPCCallError.invalidFormat method response)

/-! ## The `edit_file` tool (`sequential_workflow.py`, lines 386-400)

The workspace is modelled as an association list from (resolved) paths
to file contents; file contents are lists of characters so that
Python's `old_string in content` and
`content.replace(old_string, new_string, 1)` can be embedded exactly. -/

/-- Embedding of Python `content.replace(old, new, 1)`: replace the
leftmost occurrence of `old` (for an empty `old`, Python inserts `new`
at the front). -/
def replaceFirst (old new : List Char) : List Char → List Char
  | [] => if old.isEmpty then new else []
  | c :: rest =>
    if old.isPrefixOf (c :: rest) then new ++ (c :: rest).drop old.length
    else c :: replaceFirst old new rest

/-- Embedding of Python `old in content` on strings: `old` occurs as a
contiguous substring (an empty `old` always occurs). -/
def containsSub (old : List Char) : List Char → Bool
  | [] => old.isEmpty
  | c :: rest => old.isPrefixOf (c :: rest) || containsSub old rest

inductive ToolError where
  | fileNotFound (path : String)
  | stringNotFound (old : List Char)
  deriving DecidableEq, Repr

/-- Overwrite the content stored for `path`. -/
def writeFS (fs : List (String × List Char)) (path : String) (content : List Char) :
    List (String × List Char) :=
  fs.map (fun p => if p.1 = path then (path, content) else p)

/-- Embedding of the `edit_file` branch of
`SequentialWorkflow._execute_tool`: error when the file is missing,
error when `old_string` does not occur in the content, otherwise write
back the content with the first occurrence replaced. -/
def edit_file (fs : List (String × List Char)) (path : String)
    (old_string new_string : List Char) : Except ToolError (List (String × List Char)) :=
  match fs.lookup path with
  | none => Except.error (ToolError.fileNotFound path)
  | some content =>
    if containsSub old_string content then
      Except.ok (writeFS fs path (replaceFirst old_string new_string content))
    else Except.error (ToolError.stringNotFound old_string)

/-! ## Agent invocation loop and phase records
(`sequential_workflow.py`, lines 709-930, `state.py`, lines 87-121)

The LLM network call is modelled by a pre-recorded list of API
responses; exhausting the list models the `except` paths (timeout, API
error, generic exception), which in the source also return the
accumulated totals.  Wall-clock durations and timestamps are omitted. -/

structure Usage where
  input_tokens : ℕ
  output_tokens : ℕ
  cache_creation_input_tokens : ℕ
  cache_read_input_tokens : ℕ
  deriving DecidableEq, Repr

inductive StopReason where
  | end_turn
  | tool_use
  | other (reason : String)
  deriving DecidableEq, Repr

structure APIResponse where
  usage : Usage
  stop_reason : StopReason
  text : String
  deriving DecidableEq, Repr

structure AgentResult where
  success : Bool
  response : String
  tokens_used : ℕ
  input_tokens : ℕ
  output_tokens : ℕ
  cache_creation_tokens : ℕ
  cache_read_tokens : ℕ
  error : Option String
  deriving DecidableEq, Repr

/-- One result dictionary as built at each return site of
`SequentialWorkflow.invoke_agent`: every site sets
`tokens_used` to `total_input_tokens + total_output_tokens`. -/
def mkAgentResult (success : Bool) (response : String)
    (tin tout tcc tcr : ℕ) (error : Option String) : AgentResult :=
  { success := success
    response := response
    tokens_used := tin + tout
    input_tokens := tin
    output_tokens := tout
    cache_creation_tokens := tcc
    cache_read_tokens := tcr
    error := error }

/-- Embedding of the tool-use loop of `SequentialWorkflow.invoke_agent`
(lines 787-930).  `fuel` counts the remaining iterations out of 40;
running out fails with the max-iterations error, an empty response list
models a raised API exception, an `end_turn` response succeeds, a
`tool_use` response loops, and any other stop reason fails. -/
def invokeAgentLoop : ℕ → List APIResponse → ℕ → ℕ → ℕ → ℕ → AgentResult
  | 0, _, tin, tout, tcc, tcr =>
    mkAgentResult false "" tin tout tcc tcr (some "Max tool use iterations (40) reached")
  | _ + 1, [], tin, tout, tcc, tcr =>
    mkAgentResult false "" tin tout tcc tcr (some "API request timed out")
  | fuel + 1, r :: rest, tin, tout, tcc, tcr =>
    let tin := tin + r.usage.input_tokens
    let tout := tout + r.usage.output_tokens
    let tcc := tcc + r.usage.cache_creation_input_tokens
    let tcr := tcr + r.usage.cache_read_input_tokens
    match r.stop_reason with
    | StopReason.end_turn => mkAgentResult true r.text tin tout tcc tcr none
    | StopReason.tool_use => invokeAgentLoop fuel rest tin tout tcc tcr
    | StopReason.other s =>
      mkAgentResult false "" tin tout tcc tcr (some ("Unexpected stop reason: " ++ s))

/-- Embedding of `SequentialWorkflow.invoke_agent` as a function of the
API responses the model would return. -/
def invoke_agent (responses : List APIResponse) : AgentResult :=
  invokeAgentLoop 40 responses 0 0 0 0

structure PhaseRecord where
  agent : String
  tokens_used : ℕ
  result_summary : String
  iteration_outer : ℕ
  iteration_inner : Option ℕ
  input_tokens : ℕ
  output_tokens : ℕ
  cache_creation_tokens : ℕ
  cache_read_tokens : ℕ
  deriving DecidableEq, Repr

structure WorkflowState where
  task_description : String
  workspace : String
  outer_iteration : ℕ
  inner_iteration : ℕ
  compliance_score : ℚ
  inner_loop_active : Bool
  phase_history : List PhaseRecord
  deriving DecidableEq, Repr

/-- Embedding of `WorkflowState.record_phase` (`state.py`, lines
87-121): append one `PhaseRecord` with the given counters and the
current iteration coordinates. -/
def WorkflowState.record_phase (state : WorkflowState) (agent : String)
    (tokens_used : ℕ) (result_summary : String)
    (input_tokens output_tokens cache_creation_tokens cache_read_tokens : ℕ) :
    WorkflowState :=
  { state with
    phase_history := state.phase_history ++
      [{ agent := agent
         tokens_used := tokens_used
         result_summary := result_summary
         iteration_outer := state.outer_iteration
         iteration_inner := if state.inner_loop_active then some state.inner_iteration else none
         input_tokens := input_tokens
         output_tokens := output_tokens
         cache_creation_tokens := cache_creation_tokens
         cache_read_tokens := cache_read_tokens }] }

/-- The call pattern shared by every `state.record_phase(...)` site in
`sequential_workflow.py` (auditor, code generator, contract writer,
planner, evaluator, refiner, PR orchestrator): the token arguments are
taken from the fields of one `invoke_agent` result dictionary. -/
def recordAgentPhase (state : WorkflowState) (agent : String)
    (result : AgentResult) (summary : String) : WorkflowState :=
  state.record_phase agent result.tokens_used summary
    result.input_tokens result.output_tokens
    result.cache_creation_tokens result.cache_read_tokens

/-! ## Sample inputs (used to instantiate theorems at concrete values) -/

def sampleMetadata : LibraryMetadata :=
  { workspace_path := "/ws"
    detected_language := "python"
    bridge_type := "python_direct"
    supports_signature_verification := false
    supports_type_introspection := false
    supports_docstring_verification := false
    load_errors := [] }

def sampleVerificationResult : VerificationResult :=
  { is_compliant := true
    verification_level := "MARKER_ONLY"
    required_functions_found := ["f"]
    required_functions_missing := []
    signature_matches := [("f", true)]
    signature_mismatches := []
    type_mismatches := []
    missing_docstrings := []
    adc_implements_markers_found := ["blk"]
    adc_implements_markers_missing := []
    verification_timestamp := "t"
    library_metadata := sampleMetadata
    verification_errors := []
    warnings := [] }

def sampleExpected : ExpectedInterface :=
  { contract_id := "c1"
    required_functions := []
    required_block_ids := ["blk"]
    expected_docstrings := [] }

/-! ## Theorems -/

theorem lastThree_eq {α : Type} (pre1 pre2 : List α) (a1 b1 c1 a2 b2 c2 : α)
    (h : pre1 ++ [a1, b1, c1] = pre2 ++ [a2, b2, c2]) :
    a1 = a2 ∧ b1 = b2 ∧ c1 = c2 := by
  have hlen : pre1.length = pre2.length := by
    have hl := congrArg List.length h
    simp at hl
    omega
  have h1 := congrArg (List.drop pre1.length) h
  rw [List.drop_left, hlen, List.drop_left] at h1
  injection h1 with e1 h1
  injection h1 with e2 h1
  injection h1 with e3 h1
  exact ⟨e1, e2, e3⟩

theorem isStuck_iff (scores : List ℚ) :
    ProgressTracker.is_stuck scores = true ↔
      3 ≤ scores.length ∧ ∃ pre a b c, scores = pre ++ [a, b, c] ∧ c ≤ b ∧ b ≤ a := by
  unfold ProgressTracker.is_stuck
  by_cases hlen : scores.length < 3
  · simp only [if_pos hlen, Bool.false_eq_true, false_iff, not_and]
    intro h3
    omega
  · push_neg at hlen
    rw [if_neg (by omega : ¬ scores.length < 3)]
    have hdl : (scores.drop (scores.length - 3)).length = 3 := by
      rw [List.length_drop]; omega
    obtain ⟨a, b, c, habc⟩ := List.length_eq_three.mp hdl
    rw [habc]
    simp only [Bool.and_eq_true, decide_eq_true_eq]
    constructor
    · rintro ⟨h1, h2⟩
      refine ⟨hlen, scores.take (scores.length - 3), a, b, c, ?_, h1, h2⟩
      conv_lhs => rw [← List.take_append_drop (scores.length - 3) scores]
      rw [habc]
    · rintro ⟨-, pre, a1, b1, c1, hsc, h1, h2⟩
      have hplen : pre.length = scores.length - 3 := by
        have hsl : scores.length = pre.length + 3 := by rw [hsc]; simp
        omega
      have hdrop : scores.drop (scores.length - 3) = [a1, b1, c1] := by
        rw [hsc]
        have hl3 : (pre ++ [a1, b1, c1]).length - 3 = pre.length := by simp
        rw [hl3]
        exact List.drop_left pre [a1, b1, c1]
      rw [habc] at hdrop
      obtain ⟨ea, eb, ec⟩ := lastThree_eq [] [] a b c a1 b1 c1 (by simpa using hdrop)
      subst ea; subst eb; subst ec
      exact ⟨h1, h2⟩

/-- Claim C3: the ProgressTracker reports stuck exactly when the history
has at least three scores and the last three are non-increasing; a
history of fewer than three scores is never stuck, and a strict increase
within the last three prevents stuckness. -/
theorem C3_is_stuck_characterization (scores : List ℚ) :
    (ProgressTracker.is_stuck scores = true ↔
        3 ≤ scores.length ∧ ∃ pre a b c, scores = pre ++ [a, b, c] ∧ c ≤ b ∧ b ≤ a)
    ∧ (scores.length < 3 → ProgressTracker.is_stuck scores = false)
    ∧ (∀ pre a b c, scores = pre ++ [a, b, c] → (a < b ∨ b < c) →
        ProgressTracker.is_stuck scores = false) := by
  refine ⟨isStuck_iff scores, ?_, ?_⟩
  · intro h
    cases hb : ProgressTracker.is_stuck scores with
    | false => rfl
    | true =>
      obtain ⟨h3, -⟩ := (isStuck_iff scores).mp hb
      omega
  · intro pre a b c hsc hinc
    cases hb : ProgressTracker.is_stuck scores with
    | false => rfl
    | true =>
      exfalso
      obtain ⟨-, pre1, a1, b1, c1, hsc1, hc1, hb1⟩ := (isStuck_iff scores).mp hb
      obtain ⟨ea, eb, ec⟩ := lastThree_eq pre pre1 a b c a1 b1 c1 (hsc ▸ hsc1 ▸ rfl)
      subst ea; subst eb; subst ec
      rcases hinc with h | h
      · exact absurd hb1 (not_le.mpr h)
      · exact absurd hc1 (not_le.mpr h)

theorem C3_witness :
    ProgressTracker.is_stuck [1, 1, 1] = true
    ∧ ProgressTracker.is_stuck [1, 2] = false
    ∧ ProgressTracker.is_stuck [0, 0, 1] = false := by
  refine ⟨?_, ?_, ?_⟩
  · exact (C3_is_stuck_characterization [1, 1, 1]).1.mpr
      ⟨by simp, [], 1, 1, 1, by simp, le_refl 1, le_refl 1⟩
  · exact (C3_is_stuck_characterization [1, 2]).2.1 (by simp)
  · exact (C3_is_stuck_characterization [0, 0, 1]).2.2 [] 0 0 1 (by simp)
      (Or.inr (by norm_num))

/-- Claim C6: the graduated acceptance target is 0.60 for the first
three inner iterations, 0.70 through the sixth, 0.85 thereafter; it only
takes the values 0.60, 0.70, 0.85 and is non-decreasing in the iteration
index. -/
theorem C6_graduated_target (i : ℕ) :
    (i ≤ 2 → getComplianceTarget i = 0.60)
    ∧ (3 ≤ i → i ≤ 5 → getComplianceTarget i = 0.70)
    ∧ (6 ≤ i → getComplianceTarget i = 0.85)
    ∧ (getComplianceTarget i = 0.60 ∨ getComplianceTarget i = 0.70 ∨
        getComplianceTarget i = 0.85)
    ∧ (∀ j, i ≤ j → getComplianceTarget i ≤ getComplianceTarget j) := by
  unfold getComplianceTarget
  refine ⟨?_, ?_, ?_, ?_, ?_⟩
  · intro h; rw [if_pos h]
  · intro h3 h5; rw [if_neg (by omega), if_pos h5]
  · intro h6; rw [if_neg (by omega), if_neg (by omega)]
  · split_ifs <;> simp
  · intro j hij
    split_ifs <;> first | (exfalso; omega) | norm_num

theorem C6_witness :
    getComplianceTarget 1 = 0.60 ∧ getComplianceTarget 4 = 0.70
    ∧ getComplianceTarget 7 = 0.85
    ∧ getComplianceTarget 2 ≤ getComplianceTarget 6 := by
  refine ⟨(C6_graduated_target 1).1 (by decide),
    (C6_graduated_target 4).2.1 (by decide) (by decide),
    (C6_graduated_target 7).2.2.1 (by decide),
    (C6_graduated_target 2).2.2.2.2 6 (by decide)⟩

/-- Claim C1 counterexample: with history 0.9, 0.9, 0.9 at iteration 0
(target 0.60) the newest score meets the target and the last three
scores are non-increasing, yet the inner loop exits through the stuck
branch, not the target-met branch: the stagnation check at line 1172
runs before the target check at line 1179. -/
theorem C1_counterexample :
    (0.9 : ℚ) ≥ getComplianceTarget 0
    ∧ ProgressTracker.is_stuck ([0.9, 0.9] ++ [(0.9 : ℚ)]) = true
    ∧ (innerLoopPostAudit [0.9, 0.9] 0.9 0 10).1 = InnerExit.stuck
    ∧ ¬ (innerLoopPostAudit [0.9, 0.9] 0.9 0 10).1 = InnerExit.targetMet := by
  have h2 : ProgressTracker.is_stuck ([0.9, 0.9] ++ [(0.9 : ℚ)]) = true := by
    norm_num [ProgressTracker.is_stuck]
  have h3 : (innerLoopPostAudit [0.9, 0.9] 0.9 0 10).1 = InnerExit.stuck := by
    simp only [innerLoopPostAudit, h2, if_pos]
  refine ⟨by norm_num [getComplianceTarget], h2, h3, by rw [h3]; intro hc; cases hc⟩

/-- Claim C1 (amended): the stagnation check runs first.  Whenever the
history including the newest score forms a non-increasing final triple,
the inner loop exits through the stuck branch — even when the newest
score meets the current graduated target; both exits return the same
compliance value. -/
theorem C1_stuck_check_runs_first (prev : List ℚ) (compliance : ℚ)
    (inner_iteration max_inner : ℕ)
    (h : ProgressTracker.is_stuck (prev ++ [compliance]) = true) :
    (innerLoopPostAudit prev compliance inner_iteration max_inner).1 = InnerExit.stuck := by
  simp only [innerLoopPostAudit, h, if_pos]

theorem C1_witness :
    ProgressTracker.is_stuck ([1, 1] ++ [(1 : ℚ)]) = true
    ∧ (innerLoopPostAudit [1, 1] 1 0 10).1 = InnerExit.stuck := by
  have h : ProgressTracker.is_stuck ([1, 1] ++ [(1 : ℚ)]) = true := by decide
  exact ⟨h, C1_stuck_check_runs_first [1, 1] 1 0 10 h⟩

/-- Claim C2 counterexample: the engine's contract collection (used by
both the existing-contracts check and the summary builder) ignores a
contracts directory holding only `a.md`, and with both `a.qmd` and
`a.md` present only `a.qmd` is collected — `.md` is not accepted at all,
so it cannot win. -/
theorem C2_counterexample :
    collectContractFiles ["a.md"] = []
    ∧ existingContracts true ["a.md"] = []
    ∧ strEndsWith "a.md" ".md" = true
    ∧ collectContractFiles ["a.qmd", "a.md"] = ["a.qmd"]
    ∧ "a.md" ∉ collectContractFiles ["a.qmd", "a.md"] := by
  refine ⟨by decide, by decide, by decide, by decide, by decide⟩

/-- Claim C2 (amended): when collecting contracts (for the
existing-contracts check and for building the contract summary) the
engine accepts exactly the `.qmd` and `.adc` extensions; `.md` files are
never collected, and no extension takes precedence — all matching files
are included, `.qmd` files first. -/
theorem C2_collect_qmd_and_adc (files : List String) (f : String) :
    (f ∈ collectContractFiles files ↔
        f ∈ files ∧ (strEndsWith f ".qmd" = true ∨ strEndsWith f ".adc" = true))
    ∧ existingContracts true files = collectContractFiles files
    ∧ existingContracts false files = [] := by
  refine ⟨?_, rfl, rfl⟩
  simp only [collectContractFiles, List.mem_append, List.mem_filter]
  tauto

/-- Claim C4 counterexample: the scanners extract the capture of
`ADC-IMPLEMENTS:\s*<([^>]+)>` (see the pattern comments at
`marker_verifier.py` lines 52, 57 and 96), not of the claimed
`ADC-IMPLEMENTS:\s*<([a-zA-Z0-9_-]+)>`: on a file containing
`# ADC-IMPLEMENTS: <a.b>` the code returns the ID `a.b`, which contains
a dot, while the claimed regular expression captures nothing. -/
theorem C4_counterexample :
    MarkerVerifier.find_markers ["# ADC-IMPLEMENTS: <a.b>"] = ["a.b"]
    ∧ findMarkersClaim ["# ADC-IMPLEMENTS: <a.b>"] = []
    ∧ '.' ∈ "a.b".toList
    ∧ isClaimIdChar '.' = false := by
  refine ⟨by decide, by decide, by decide, by decide⟩

theorem splitAtGt_chars {l cap rest : List Char}
    (h : splitAtGt l = some (cap, rest)) :
    (∀ c ∈ cap, c ∈ l ∧ c ≠ '>') ∧ ∀ c ∈ rest, c ∈ l := by
  induction l generalizing cap rest with
  | nil => simp [splitAtGt] at h
  | cons a as ih =>
    by_cases ha : a = '>'
    · rw [splitAtGt, if_pos ha] at h
      simp only [Option.some.injEq, Prod.mk.injEq] at h
      obtain ⟨h1, h2⟩ := h
      subst h1; subst h2
      exact ⟨by simp, fun c hc => List.mem_cons_of_mem a hc⟩
    · rw [splitAtGt, if_neg ha] at h
      cases hsp : splitAtGt as with
      | none => rw [hsp] at h; simp at h
      | some p =>
        obtain ⟨cap1, rest1⟩ := p
        rw [hsp] at h
        simp only [Option.some.injEq, Prod.mk.injEq] at h
        obtain ⟨hcap, hrest⟩ := h
        obtain ⟨ih1, ih2⟩ := ih hsp
        constructor
        · intro c hc
          rw [← hcap] at hc
          rcases List.mem_cons.mp hc with hc | hc
          · rw [hc]
            exact ⟨List.mem_cons_self a as, ha⟩
          · obtain ⟨hmem, hne⟩ := ih1 c hc
            exact ⟨List.mem_cons_of_mem a hmem, hne⟩
        · intro c hc
          rw [← hrest] at hc
          exact List.mem_cons_of_mem a ((ih2 c) hc)

theorem matchMarkerAt_chars {l cap after : List Char}
    (h : matchMarkerAt l = some (cap, after)) :
    cap ≠ [] ∧ (∀ c ∈ cap, c ∈ l ∧ c ≠ '>') ∧ ∀ c ∈ after, c ∈ l := by
  unfold matchMarkerAt at h
  split at h
  next hp =>
    split at h
    next l2 heq =>
      split at h
      next cap1 rest1 hsp =>
        split at h
        next hemp => exact absurd h (by simp)
        next hemp =>
          simp only [Option.some.injEq, Prod.mk.injEq] at h
          obtain ⟨hcap, hafter⟩ := h
          subst hcap; subst hafter
          have hsub : ∀ c, c ∈ ('<' :: l2) → c ∈ l := by
            intro c hc
            rw [← heq] at hc
            exact (List.drop_sublist markerLiteral.length l).subset
              ((List.dropWhile_sublist isRegexSpace).subset hc)
          obtain ⟨h1, h2⟩ := splitAtGt_chars hsp
          refine ⟨?_, ?_, ?_⟩
          · intro hc; rw [hc] at hemp; simp at hemp
          · intro c hc
            obtain ⟨hmem, hne⟩ := h1 c hc
            exact ⟨hsub c (List.mem_cons_of_mem '<' hmem), hne⟩
          · intro c hc
            exact hsub c (List.mem_cons_of_mem '<' (h2 c hc))
      next hsp => exact absurd h (by simp)
    next heq => exact absurd h (by simp)
  next hp => exact absurd h (by simp)

theorem scanLineFuel_chars (fuel : ℕ) :
    ∀ (l cap : List Char), cap ∈ scanLineFuel fuel l →
      cap ≠ [] ∧ ∀ c ∈ cap, c ∈ l ∧ c ≠ '>' := by
  induction fuel with
  | zero => intro l cap h; simp [scanLineFuel] at h
  | succ n ih =>
    intro l cap h
    cases l with
    | nil => simp [scanLineFuel] at h
    | cons c0 rest =>
      rw [scanLineFuel] at h
      cases hm : matchMarkerAt (c0 :: rest) with
      | some p =>
        obtain ⟨cap1, after⟩ := p
        rw [hm] at h
        obtain ⟨hne, hcap1, hafter⟩ := matchMarkerAt_chars hm
        rcases List.mem_cons.mp h with hc | hc
        · subst hc
          exact ⟨hne, hcap1⟩
        · obtain ⟨h1, h2⟩ := ih after cap hc
          exact ⟨h1, fun c hcc => ⟨hafter c (h2 c hcc).1, (h2 c hcc).2⟩⟩
      | none =>
        rw [hm] at h
        obtain ⟨h1, h2⟩ := ih rest cap h
        exact ⟨h1, fun c hcc => ⟨List.mem_cons_of_mem c0 (h2 c hcc).1, (h2 c hcc).2⟩⟩

/-- Claim C4 (amended): the set of block IDs returned by the Marker
Scanner equals the set of IDs captured by the regular expression
`ADC-IMPLEMENTS:\s*<([^>]+)>` over the file contents (which is what
`MarkerVerifier.find_markers` computes); consequently every returned
block ID is nonempty and contains no `>` character, but it may contain
any other character, such as a dot or a space. -/
theorem C4_marker_ids (fileContents : List String) (id : String)
    (h : id ∈ MarkerVerifier.find_markers fileContents) :
    id ≠ "" ∧ ∀ c ∈ id.toList, c ≠ '>' := by
  unfold MarkerVerifier.find_markers at h
  rw [List.mem_dedup] at h
  obtain ⟨content, _, hid⟩ := List.mem_flatMap.mp h
  unfold findMarkersInContent at hid
  obtain ⟨cap, hcap, hasString⟩ := List.mem_map.mp hid
  obtain ⟨line, _, hline⟩ := List.mem_flatMap.mp hcap
  obtain ⟨hne, hchars⟩ := scanLineFuel_chars line.length line cap hline
  subst hasString
  constructor
  · intro hcontra
    exact hne (by
      have : cap.asString.toList = "".toList := by rw [hcontra]
      simpa using this)
  · intro c hc
    have hcl : cap.asString.toList = cap := rfl
    rw [hcl] at hc
    exact (hchars c hc).2

theorem C4_witness :
    ("alpha" ∈ MarkerVerifier.find_markers ["x ADC-IMPLEMENTS: <alpha>"])
    ∧ "alpha" ≠ "" ∧ ∀ c ∈ "alpha".toList, c ≠ '>' :=
  ⟨by decide, C4_marker_ids ["x ADC-IMPLEMENTS: <alpha>"] "alpha" (by decide)⟩

/-- Claim C5: for a VerificationResult with at least one required
function, the compliance score is the clamp to the unit interval of
(found − signature mismatches − missing markers) / (found + missing),
where the signature-mismatch deduction applies exactly when the bridge
supports signature verification; and the score lies in the unit
interval. -/
theorem C5_compliance_score (v : VerificationResult)
    (h : 1 ≤ v.required_functions_found.length + v.required_functions_missing.length) :
    v.compliance_score =
      max 0 (min 1
        ((((v.required_functions_found.length : ℤ)
            - (if v.library_metadata.supports_signature_verification
               then (v.signature_mismatches.length : ℤ) else 0)
            - (v.adc_implements_markers_missing.length : ℤ) : ℤ) : ℚ)
          / ((v.required_functions_found.length
              + v.required_functions_missing.length : ℕ) : ℚ)))
    ∧ 0 ≤ v.compliance_score ∧ v.compliance_score ≤ 1 := by
  have hne : ¬ (v.required_functions_found.length + v.required_functions_missing.length = 0) := by
    omega
  simp only [VerificationResult.compliance_score]
  rw [if_neg hne]
  refine ⟨?_, le_max_left 0 _, max_le (by norm_num) (min_le_left 1 _)⟩
  by_cases hs : v.library_metadata.supports_signature_verification
  · simp only [hs, if_true]
  · simp only [hs, Bool.false_eq_true, if_false, sub_zero]

theorem C5_witness :
    1 ≤ sampleVerificationResult.required_functions_found.length
        + sampleVerificationResult.required_functions_missing.length
    ∧ (sampleVerificationResult.compliance_score =
        max 0 (min 1
          ((((sampleVerificationResult.required_functions_found.length : ℤ)
              - (if sampleVerificationResult.library_metadata.supports_signature_verification
                 then (sampleVerificationResult.signature_mismatches.length : ℤ) else 0)
              - (sampleVerificationResult.adc_implements_markers_missing.length : ℤ) : ℤ) : ℚ)
            / ((sampleVerificationResult.required_functions_found.length
                + sampleVerificationResult.required_functions_missing.length : ℕ) : ℚ)))
        ∧ 0 ≤ sampleVerificationResult.compliance_score
        ∧ sampleVerificationResult.compliance_score ≤ 1) :=
  ⟨by decide, C5_compliance_score sampleVerificationResult (by decide)⟩

/-- Claim C10: when the ExpectedInterface has no required functions,
`verify_compliance` produces a result whose compliance score is 0 —
regardless of proxy attributes and marker coverage, hence even when the
result is compliant. -/
theorem C10_empty_required_functions (expected : ExpectedInterface)
    (proxyAttrs : List String) (metadata : LibraryMetadata)
    (markerScan : Except String (List String)) (now : String)
    (h : expected.required_functions = []) :
    (verify_compliance expected proxyAttrs metadata markerScan now).compliance_score = 0 := by
  simp [verify_compliance, VerificationResult.compliance_score, h]

theorem C10_witness :
    sampleExpected.required_functions = []
    ∧ (verify_compliance sampleExpected [] sampleMetadata
        (Except.ok ["blk"]) "t").is_compliant = true
    ∧ (verify_compliance sampleExpected [] sampleMetadata
        (Except.ok ["blk"]) "t").compliance_score = 0 :=
  ⟨rfl, by decide,
    C10_empty_required_functions sampleExpected [] sampleMetadata (Except.ok ["blk"]) "t" rfl⟩

/-- Claim C7: the request sent by `RPCBridge.call` is one frame of a
4-byte big-endian unsigned length prefix followed by the MessagePack
encoding of the map with keys `c` (method) and `a` (kwargs); a decoded
response containing key `e` raises an RPC error carrying the remote
message, a response containing `r` and not `e` returns the value at `r`
unchanged, and a response with neither raises a protocol error. -/
theorem C7_rpc_protocol (packb : MsgValue → List ℕ) (method : String)
    (kwargs : List (String × MsgValue)) (response : List (String × MsgValue)) :
    (RPCBridge.buildRequest packb method kwargs =
        toBE32 (packb (rpcRequestPayload method kwargs)).length
          ++ packb (rpcRequestPayload method kwargs))
    ∧ ((packb (rpcRequestPayload method kwargs)).length < 2 ^ 32 →
        ofBE32 ((RPCBridge.buildRequest packb method kwargs).take 4) =
          (packb (rpcRequestPayload method kwargs)).length)
    ∧ (∀ msg, response.lookup "e" = some msg →
        RPCBridge.handleResponse method response =
          Except.error (RPCCallError.remote method msg))
    ∧ (∀ res, response.lookup "e" = none → response.lookup "r" = some res →
        RPCBridge.handleResponse method response = Except.ok res)
    ∧ (response.lookup "e" = none → response.lookup "r" = none →
        RPCBridge.handleResponse method response =
          Except.error (RPCCallError.invalidFormat method response)) := by
  refine ⟨rfl, ?_, ?_, ?_, ?_⟩
  · intro hlen
    show ofBE32 (toBE32 (packb (rpcRequestPayload method kwargs)).length) =
      (packb (rpcRequestPayload method kwargs)).length
    simp only [toBE32, ofBE32]
    omega
  · intro msg hmsg
    unfold RPCBridge.handleResponse
    rw [hmsg]
  · intro res he hr
    unfold RPCBridge.handleResponse
    rw [he, hr]
  · intro he hr
    unfold RPCBridge.handleResponse
    rw [he, hr]

theorem C7_witness :
    (((fun _ => ([0] : List ℕ)) : MsgValue → List ℕ)
        (rpcRequestPayload "m" [])).length < 2 ^ 32
    ∧ ofBE32 ((RPCBridge.buildRequest (fun _ => ([0] : List ℕ)) "m" []).take 4) =
        (((fun _ => ([0] : List ℕ)) : MsgValue → List ℕ)
          (rpcRequestPayload "m" [])).length
    ∧ ([("e", MsgValue.str "boom")].lookup "e" = some (MsgValue.str "boom"))
    ∧ RPCBridge.handleResponse "m" [("e", MsgValue.str "boom")] =
        Except.error (RPCCallError.remote "m" (MsgValue.str "boom"))
    ∧ RPCBridge.handleResponse "m" [("r", MsgValue.int 5)] = Except.ok (MsgValue.int 5)
    ∧ RPCBridge.handleResponse "m" [] =
        Except.error (RPCCallError.invalidFormat "m" []) :=
  ⟨by decide,
   (C7_rpc_protocol (fun _ => ([0] : List ℕ)) "m" [] []).2.1 (by decide),
   rfl,
   (C7_rpc_protocol (fun _ => ([0] : List ℕ)) "m" []
     [("e", MsgValue.str "boom")]).2.2.1 (MsgValue.str "boom") rfl,
   (C7_rpc_protocol (fun _ => ([0] : List ℕ)) "m" []
     [("r", MsgValue.int 5)]).2.2.2.1 (MsgValue.int 5) rfl rfl,
   (C7_rpc_protocol (fun _ => ([0] : List ℕ)) "m" [] []).2.2.2.2 rfl rfl⟩

theorem replaceFirst_spec (old new s : List Char) (h : containsSub old s = true) :
    ∃ pre suf, s = pre ++ old ++ suf
      ∧ replaceFirst old new s = pre ++ new ++ suf
      ∧ ∀ p q, s = p ++ old ++ q → pre.length ≤ p.length := by
  induction s with
  | nil =>
    have hold : old = [] := by
      simpa [containsSub, List.isEmpty_iff] using h
    subst hold
    exact ⟨[], [], by simp, by simp [replaceFirst], fun p q hp => by simp⟩
  | cons c rest ih =>
    by_cases hp : old.isPrefixOf (c :: rest)
    · obtain ⟨t, ht⟩ := List.isPrefixOf_iff_prefix.mp hp
      refine ⟨[], t, by simpa using ht.symm, ?_, fun p q hpq => by simp⟩
      simp only [replaceFirst, hp, if_true]
      rw [← ht, List.drop_left]
      simp
    · have h' : containsSub old rest = true := by
        have h2 := h
        simp only [containsSub, Bool.or_eq_true] at h2
        rcases h2 with h2 | h2
        · exact absurd h2 hp
        · exact h2
      obtain ⟨pre, suf, hseq, hrep, hmin⟩ := ih h'
      refine ⟨c :: pre, suf, by simp [hseq], ?_, ?_⟩
      · simp only [replaceFirst, hp, Bool.false_eq_true, if_false, hrep]
        simp
      · intro p q hpq
        cases p with
        | nil =>
          exfalso
          simp only [List.nil_append] at hpq
          exact hp (List.isPrefixOf_iff_prefix.mpr ⟨q, hpq.symm⟩)
        | cons p0 ps =>
          simp only [List.cons_append, List.cons.injEq] at hpq
          have := hmin ps q hpq.2
          simp only [List.length_cons]
          omega

/-- Claim C8 counterexample: the `edit_file` tool does not require a
unique match of the old substring — on a file whose content `abab`
contains `ab` twice, the call succeeds and replaces the first
occurrence. -/
theorem C8_counterexample :
    edit_file [("f", "abab".toList)] "f" "ab".toList "X".toList =
      Except.ok [("f", "Xab".toList)]
    ∧ "abab".toList = [] ++ "ab".toList ++ "ab".toList
    ∧ "abab".toList = "ab".toList ++ "ab".toList ++ ([] : List Char) :=
  ⟨rfl, rfl, rfl⟩

/-- Claim C8 (amended): `edit_file` returns a structured error iff the
target file is missing or the old substring is not present; it requires
an exact (not necessarily unique) match of the old substring; and on
success it replaces exactly the first (leftmost) occurrence of the old
substring with the new one, leaving the rest of the file content
unchanged. -/
theorem C8_edit_file_semantics (fs : List (String × List Char)) (path : String)
    (old new : List Char) :
    ((∃ e, edit_file fs path old new = Except.error e) ↔
        fs.lookup path = none ∨
        ∃ content, fs.lookup path = some content ∧ containsSub old content = false)
    ∧ (∀ content, fs.lookup path = some content → containsSub old content = true →
        ∃ pre suf, content = pre ++ old ++ suf
          ∧ edit_file fs path old new = Except.ok (writeFS fs path (pre ++ new ++ suf))
          ∧ ∀ p q, content = p ++ old ++ q → pre.length ≤ p.length) := by
  constructor
  · cases hl : fs.lookup path with
    | none => simp [edit_file, hl]
    | some content =>
      by_cases hc : containsSub old content
      · simp [edit_file, hl, hc]
      · simp [edit_file, hl, hc]
  · intro content hl hc
    obtain ⟨pre, suf, h1, h2, h3⟩ := replaceFirst_spec old new content hc
    refine ⟨pre, suf, h1, ?_, h3⟩
    simp [edit_file, hl, hc, ← h2]

theorem C8_witness :
    ([("f", "abab".toList)].lookup "f" = some "abab".toList)
    ∧ containsSub "ab".toList "abab".toList = true
    ∧ ∃ pre suf, "abab".toList = pre ++ "ab".toList ++ suf
        ∧ edit_file [("f", "abab".toList)] "f" "ab".toList "X".toList =
            Except.ok (writeFS [("f", "abab".toList)] "f" (pre ++ "X".toList ++ suf))
        ∧ ∀ p q, "abab".toList = p ++ "ab".toList ++ q → pre.length ≤ p.length :=
  ⟨rfl, by decide,
    (C8_edit_file_semantics [("f", "abab".toList)] "f" "ab".toList "X".toList).2
      "abab".toList rfl (by decide)⟩

theorem invokeLoop_tokens (fuel : ℕ) :
    ∀ (responses : List APIResponse) (tin tout tcc tcr : ℕ),
      (invokeAgentLoop fuel responses tin tout tcc tcr).tokens_used
        = (invokeAgentLoop fuel responses tin tout tcc tcr).input_tokens
          + (invokeAgentLoop fuel responses tin tout tcc tcr).output_tokens := by
  induction fuel with
  | zero => intro responses tin tout tcc tcr; rfl
  | succ n ih =>
    intro responses tin tout tcc tcr
    cases responses with
    | nil => rfl
    | cons r rest =>
      cases hs : r.stop_reason with
      | end_turn => simp [invokeAgentLoop, hs, mkAgentResult]
      | tool_use => simpa [invokeAgentLoop, hs] using ih rest _ _ _ _
      | other s => simp [invokeAgentLoop, hs, mkAgentResult]

/-- Claim C9: every phase record the workflow appends from an agent
invocation result satisfies tokens_used = input_tokens + output_tokens,
with the cache counters carried as separate fields; this holds for every
return path of `invoke_agent` (end_turn success, unexpected stop reason,
iteration-cap exhaustion, and the exception paths, all covered by the
quantification over response lists). -/
theorem C9_phase_record_tokens (state : WorkflowState) (agent summary : String)
    (responses : List APIResponse) :
    ∃ p, (recordAgentPhase state agent (invoke_agent responses) summary).phase_history
          = state.phase_history ++ [p]
      ∧ p.tokens_used = p.input_tokens + p.output_tokens
      ∧ p.input_tokens = (invoke_agent responses).input_tokens
      ∧ p.output_tokens = (invoke_agent responses).output_tokens
      ∧ p.cache_creation_tokens = (invoke_agent responses).cache_creation_tokens
      ∧ p.cache_read_tokens = (invoke_agent responses).cache_read_tokens := by
  refine ⟨_, rfl, ?_, rfl, rfl, rfl, rfl⟩
  exact invokeLoop_tokens 40 responses 0 0 0 0

end ADC
